import Mathlib

/-!
Verification of clcache.py (a compiler cache for Microsoft Visual Studio)
against its natural-language specification.

The development shallowly embeds the relevant parts of src/clcache.py:
the filesystem is an association of absolute paths to file contents, md5
hex digests are abstracted into a hash-function parameter `H`, subprocess
outputs (preprocessor stdout, compiler exit codes) become explicit
parameters, and Python exceptions become explicit `Option`/`Except`
error values.
-/

set_option autoImplicit false

namespace Clcache

/-! ## Filesystem model -/

/-- A snapshot of the filesystem: an association of absolute path to file
contents. A path absent from the list does not exist. -/
abbrev FS := List (String × String)

/-- Contents of the file at `p`, or `none` when it does not exist. -/
def fsRead (fs : FS) (p : String) : Option String := fs.lookup p

/-- os.path.exists. -/
def fsExists (fs : FS) (p : String) : Bool := (fsRead fs p).isSome

/-- Writing a whole file with mode 'w': replaces any previous contents. -/
def fsWrite (fs : FS) (p c : String) : FS :=
  (p, c) :: fs.filter (fun kv => kv.1 != p)

/-- Python exceptions that the embedded code can raise. -/
inductive PyExc
  | nameError
  | indexError
  | typeError
  | ioError
deriving DecidableEq

/-! ## Path derivation (ObjectCache, lines 239-278) -/

/-- os.path.join of two components with the Windows separator, as used by
the script for cache-internal paths. -/
def osJoin (a b : String) : String := a ++ "\\" ++ b

/-- ObjectCache._cacheEntryDir, lines 268-269:
os.path.join(self.dir, key[:2], key). -/
def cacheEntryDir (root key : String) : String :=
  osJoin (osJoin root (key.take 2)) key

/-- ObjectCache.cachedObjectName, lines 239-240. -/
def cachedObjectName (root key : String) : String :=
  osJoin (cacheEntryDir root key) "object"

/-- ObjectCache._cachedCompilerManifestName, lines 271-272 (also
cachedManifestName, lines 242-243). -/
def cachedManifestName (root key : String) : String :=
  osJoin (cacheEntryDir root key) "manifest.txt"

/-! ## Manifest I/O (ObjectCache, lines 248-260) -/

/-- Helper for `splitOnceSpace`, walking the characters of the string. -/
def splitOnceSpaceAux : List Char → List Char → List String
  | [], acc => [acc.reverse.asString]
  | c :: cs, acc =>
    if c == ' ' then [acc.reverse.asString, cs.asString]
    else splitOnceSpaceAux cs (c :: acc)

/-- Python str.split(" ", 1): split at the first space only. -/
def splitOnceSpace (s : String) : List String :=
  splitOnceSpaceAux s.toList []

/-- Helper for `pyLines`, walking the characters of the file contents. -/
def pyLinesAux : List Char → List Char → List String
  | [], acc => if acc.isEmpty then [] else [acc.reverse.asString]
  | c :: cs, acc =>
    if c == '\n' then (acc.reverse ++ ['\n']).asString :: pyLinesAux cs []
    else pyLinesAux cs (c :: acc)

/-- The lines yielded by iterating a Python 2 text file whose contents are
`s`: the pieces ending in a newline, plus the final piece when nonempty. -/
def pyLines (s : String) : List String :=
  pyLinesAux s.toList []

/-- The whitespace characters of Python str.strip(). -/
def pyWhitespace (c : Char) : Bool :=
  c == ' ' || c == '\t' || c == '\n' || c == '\r' || c == '\x0b' || c == '\x0c'

/-- Python str.strip(): remove leading and trailing whitespace. -/
def pyStrip (s : String) : String :=
  ((s.toList.dropWhile pyWhitespace).reverse.dropWhile pyWhitespace).reverse.asString

/-- Assignment `d[k] = v` on a Python dict modelled as an association list:
a later assignment to the same key overwrites the earlier one. -/
def dictSet (d : List (String × String)) (k v : String) : List (String × String) :=
  if d.any (fun kv => kv.1 == k) then
    d.map (fun kv => if kv.1 == k then (k, v) else kv)
  else d ++ [(k, v)]

/-- ObjectCache.getManifest, lines 248-253, applied to the manifest file's
contents: parse each line as hash-space-path and build the dict mapping
path to hash. Returns `none` when a stripped line holds no space, where
`tmp[1]` raises IndexError. -/
def getManifestOfContents (contents : String) : Option (List (String × String)) :=
  (pyLines contents).foldlM
    (fun items line =>
      match splitOnceSpace (pyStrip line) with
      | [h, p] => some (dictSet items p h)
      | _ => none)
    []

/-- The manifest file contents produced by ObjectCache.writeManifest, lines
255-260: each (hash, path) record is written as `d[0] + " " + d[1]` with no
record terminator in between. -/
def writeManifestContents (data : List (String × String)) : String :=
  data.foldl (fun acc d => acc ++ d.1 ++ " " ++ d.2) ""

/-- ObjectCache.writeManifest, lines 255-260: write the serialized records
to the entry's manifest.txt. `data` is a list of (hash, path) pairs. -/
def writeManifest (fs : FS) (root key : String) (data : List (String × String)) : FS :=
  fsWrite fs (cachedManifestName root key) (writeManifestContents data)

/-- ObjectCache.hasManifest, lines 218-220. -/
def hasManifest (fs : FS) (root key : String) : Bool :=
  fsExists fs (cachedManifestName root key)

/-- ObjectCache.hashFile, lines 148-154: md5 of the file's contents,
abstracted into the hash parameter `H`; `none` when the file cannot be
opened. -/
def hashFile (H : String → String) (fs : FS) (p : String) : Option String :=
  (fsRead fs p).map H

/-- ObjectCache.checkManifest, lines 204-216: if a manifest exists for the
key, parse it and demand that every recorded path still exists and hashes
to the recorded digest; without a manifest the answer is False. Returns
`none` when an exception escapes (getManifest's IndexError). -/
def checkManifest (H : String → String) (fs : FS) (root key : String) : Option Bool :=
  if hasManifest fs root key then
    match fsRead fs (cachedManifestName root key) with
    | none => none
    | some contents =>
      match getManifestOfContents contents with
      | none => none
      | some md =>
        some (md.all (fun pr =>
          match hashFile H fs pr.1 with
          | none => false
          | some check => check == pr.2))
  else some false

/-! ## Lookup (ObjectCache.hasEntry and hasHit, lines 176-181, 222-228) -/

/-- ObjectCache.hasEntry, lines 222-228: the entry's object file exists. -/
def hasEntry (fs : FS) (root key : String) : Bool :=
  fsExists fs (cachedObjectName root key)

/-- Names bound at module scope in clcache.py (imports, classes, module
functions). The bare identifier `hasEntry` on line 181 of ObjectCache.hasHit
is resolved against these (method names of ObjectCache are not in scope). -/
def moduleGlobals : List String :=
  ["windll", "wintypes", "codecs", "defaultdict", "hashlib", "json", "os",
   "copyfile", "rmtree", "subprocess", "Popen", "PIPE", "STDOUT", "sys",
   "multiprocessing", "re", "shlex",
   "ObjectCacheLockException", "ObjectCacheLock", "ObjectCache",
   "PersistentJSONDict", "Configuration", "CacheStatistics", "AnalysisResult",
   "copyOrLink", "findCompilerBinary", "printTraceStatement",
   "expandCommandLine", "parseCommandLine", "analyzeCommandLine",
   "invokeRealCompiler", "waitForAnyProcess", "jobCount", "runJobs",
   "reinvokePerSourceFile", "printStatistics", "resetStatistics"]

/-- ObjectCache.hasHit, lines 176-181. In direct mode it defers to
checkManifest; otherwise it evaluates the bare call `hasEntry(hashkey)`,
which looks the name up at module scope and raises NameError when absent. -/
def hasHit (H : String → String) (directmode : Bool) (fs : FS) (root key : String) :
    Except PyExc Bool :=
  if directmode then
    match checkManifest H fs root key with
    | some b => .ok b
    | none => .error .indexError
  else
    if moduleGlobals.contains "hasEntry" then .ok (hasEntry fs root key)
    else .error .nameError

end Clcache

namespace Clcache

/-! ## Claims C1-C3: lookup and manifest round-trip -/

/-- A cache state for the preprocessed-mode lookup: the entry's object file
for key ab01ff exists on disk. -/
def fsC1 : FS := [(cachedObjectName "C:\\clcache" "ab01ff", "OBJECTBYTES")]

/-- C1: the spec says that with CLCACHE_DIRECT unset, hasHit(compiler,
cmdline, k) returns true iff the entry's object file exists. The code is a
slip: line 181 calls the bare name `hasEntry`, which is not bound at module
scope, so hasHit raises NameError on every preprocessed-mode lookup — even
when the object file exists and ObjectCache.hasEntry itself would return
True. -/
theorem hasHit_preprocessed_raises_nameError :
    hasHit (fun c => c) false fsC1 "C:\\clcache" "ab01ff" = .error .nameError ∧
    hasEntry fsC1 "C:\\clcache" "ab01ff" = true ∧
    moduleGlobals.contains "hasEntry" = false := by
  refine ⟨rfl, by decide, by decide⟩

/-- Two newline-free (hash, path) records used to exercise manifest I/O. -/
def twoRecordManifest : List (String × String) := [("h1", "p1"), ("h2", "p2")]

/-- A filesystem in which both recorded files of `twoRecordManifest` exist and,
under the identity hash, hash exactly to their recorded digests. -/
def fsC2 : FS := [("p1", "h1"), ("p2", "h2")]

/-- C2: the spec says that after writeManifest(k, M) a fresh checkManifest
returns true iff every file of M is unchanged. The code is a slip:
writeManifest (lines 255-260) writes `hash + " " + path` with no newline
between records, so two records collapse into the single line
"h1 p1h2 p2"; getManifest then parses the bogus path "p1h2 p2", whose
existence check fails, and checkManifest returns False although every file
recorded in M exists and hashes to its recorded digest. -/
theorem checkManifest_false_after_writing_two_records :
    checkManifest (fun c => c) (writeManifest fsC2 "C:\\cc" "k1k1" twoRecordManifest)
        "C:\\cc" "k1k1" = some false ∧
    twoRecordManifest.all (fun d =>
      hashFile (fun c => c) (writeManifest fsC2 "C:\\cc" "k1k1" twoRecordManifest) d.2
        == some d.1) = true ∧
    hasManifest (writeManifest fsC2 "C:\\cc" "k1k1" twoRecordManifest) "C:\\cc" "k1k1" = true := by
  refine ⟨by decide, by decide, by decide⟩

/-- The mapping path-to-hash induced by a list of (hash, path) pairs, as the
spec's round-trip property P6 reads it. -/
def inducedMapping (pairs : List (String × String)) : List (String × String) :=
  pairs.foldl (fun d pr => dictSet d pr.2 pr.1) []

/-- C3: the spec's round-trip property says writeManifest then getManifest
restores exactly the mapping path to hash (one record per line). The code is
a slip: with the two newline-free records ("h1","p1") and ("h2","p2") the
writer emits the single line "h1 p1h2 p2" and the reader returns the
one-entry dict {"p1h2 p2": "h1"}, which lacks the key "p2" that the induced
mapping binds to "h2". -/
theorem manifest_roundtrip_two_records_broken :
    getManifestOfContents (writeManifestContents twoRecordManifest) =
      some [("p1h2 p2", "h1")] ∧
    inducedMapping twoRecordManifest = [("p1", "h1"), ("p2", "h2")] ∧
    List.lookup "p2" [("p1h2 p2", "h1")] = none ∧
    List.lookup "p2" [("p1", "h1"), ("p2", "h2")] = some "h2" := by
  refine ⟨by decide, by decide, by decide, by decide⟩

end Clcache

namespace Clcache

/-! ## Claim C4: eviction (ObjectCache.clean, lines 103-126) -/

/-- The os.stat data of one cached object file as the eviction pass uses
it: last-access time (st_atime) and size in bytes (st_size), plus the
file's path. -/
structure ObjInfo where
  atime : Int
  size : Int
  path : String
deriving DecidableEq

/-- Insert into a list sorted ascending by atime, after all elements with a
smaller-or-equal atime (stable, as Python's sort is). -/
def insertByAtime (o : ObjInfo) : List ObjInfo → List ObjInfo
  | [] => [o]
  | x :: xs => if o.atime ≤ x.atime then o :: x :: xs else x :: insertByAtime o xs

/-- objectInfos.sort(key=lambda t: t[0].st_atime), line 118: stable
ascending sort by last-access time. -/
def sortByAtime (l : List ObjInfo) : List ObjInfo := l.foldr insertByAtime []

/-- The eviction loop of ObjectCache.clean, lines 120-124: remove entries in
order, subtract each object's size, stop once currentSize has dropped below
0.9 * maximumSize. The literal 0.9 is modelled exactly, via
10 * currentSize < 9 * maximumSize. Returns the removed entries in removal
order together with the final currentSize. -/
def cleanLoop (maxSize : Int) : List ObjInfo → Int → List ObjInfo × Int
  | [], cur => ([], cur)
  | o :: rest, cur =>
    let cur2 := cur - o.size
    if 10 * cur2 < 9 * maxSize then ([o], cur2)
    else
      let r := cleanLoop maxSize rest cur2
      (o :: r.1, r.2)

/-- ObjectCache.clean, lines 103-126: a no-op while the recorded cache size
is below the maximum; otherwise evict in ascending atime order and record
the new size via stats.setCacheSize. Returns the removed entries and the
final recorded cache size. -/
def clean (objs : List ObjInfo) (cur maxSize : Int) : List ObjInfo × Int :=
  if cur < maxSize then ([], cur)
  else cleanLoop maxSize (sortByAtime objs) cur

/-- Total size of the object files of a list of entries. -/
def sumSizes (l : List ObjInfo) : Int := (l.map ObjInfo.size).sum

theorem sumSizes_insertByAtime (o : ObjInfo) (l : List ObjInfo) :
    sumSizes (insertByAtime o l) = o.size + sumSizes l := by
  induction l with
  | nil => simp [insertByAtime, sumSizes]
  | cons x xs ih =>
    by_cases h : o.atime ≤ x.atime
    · simp [insertByAtime, h, sumSizes]
    · simp only [insertByAtime, if_neg h, sumSizes, List.map_cons, List.sum_cons]
      simp only [sumSizes] at ih
      omega

theorem sumSizes_sortByAtime (l : List ObjInfo) :
    sumSizes (sortByAtime l) = sumSizes l := by
  induction l with
  | nil => rfl
  | cons x xs ih =>
    simp only [sortByAtime, List.foldr_cons]
    rw [sumSizes_insertByAtime]
    simp only [sortByAtime] at ih
    rw [ih]
    simp [sumSizes]

theorem cleanLoop_removed_take (maxSize : Int) (l : List ObjInfo) (cur : Int) :
    ∃ n, (cleanLoop maxSize l cur).1 = l.take n := by
  induction l generalizing cur with
  | nil => exact ⟨0, rfl⟩
  | cons o rest ih =>
    simp only [cleanLoop]
    by_cases h : 10 * (cur - o.size) < 9 * maxSize
    · exact ⟨1, by simp [h]⟩
    · obtain ⟨n, hn⟩ := ih (cur - o.size)
      exact ⟨n + 1, by simp [h, hn]⟩

theorem cleanLoop_final (maxSize : Int) (l : List ObjInfo) (cur : Int) :
    10 * (cleanLoop maxSize l cur).2 < 9 * maxSize ∨
    (cleanLoop maxSize l cur).2 = cur - sumSizes l := by
  induction l generalizing cur with
  | nil => right; simp [cleanLoop, sumSizes]
  | cons o rest ih =>
    simp only [cleanLoop]
    by_cases h : 10 * (cur - o.size) < 9 * maxSize
    · left; simp [h]
    · rcases ih (cur - o.size) with h2 | h2
      · left; simpa [h] using h2
      · right
        simp only [if_neg h]
        simp only [h2, sumSizes, List.map_cons, List.sum_cons]
        omega

/-- C4: clean(stats, maxBytes) is a no-op when the recorded cache size is
below maxBytes; otherwise, when the recorded size equals the total size of
the stored object files, the removed entries are a prefix of the entries
sorted ascending by last-access time and the final recorded size is at most
0.9 * maxBytes (the fraction modelled exactly as 9/10). -/
theorem clean_spec (objs : List ObjInfo) (cur maxSize : Int)
    (hmax : 0 ≤ maxSize) :
    (cur < maxSize → clean objs cur maxSize = ([], cur)) ∧
    (maxSize ≤ cur → cur = sumSizes objs →
      (∃ n, (clean objs cur maxSize).1 = (sortByAtime objs).take n) ∧
      10 * (clean objs cur maxSize).2 ≤ 9 * maxSize) := by
  constructor
  · intro h
    simp [clean, h]
  · intro hge htot
    have hnotlt : ¬ cur < maxSize := not_lt.mpr hge
    constructor
    · simpa [clean, hnotlt] using cleanLoop_removed_take maxSize (sortByAtime objs) cur
    · rcases cleanLoop_final maxSize (sortByAtime objs) cur with h | h
      · simp only [clean, if_neg hnotlt]
        omega
      · simp only [clean, if_neg hnotlt, h, sumSizes_sortByAtime, ← htot]
        omega

/-- Three cached entries of four bytes each, listed out of atime order. -/
def objsC4 : List ObjInfo :=
  [⟨2, 4, "b"⟩, ⟨1, 4, "a"⟩, ⟨3, 4, "c"⟩]

/-- Witness for `clean_spec` at a concrete over-quota state: size 12 against
a maximum of 10; the eviction removes the oldest entry and lands at 8,
below 0.9 * 10. -/
theorem clean_spec_witness :
    (0 : Int) ≤ 10 ∧
    ((∃ n, (clean objsC4 12 10).1 = (sortByAtime objsC4).take n) ∧
      10 * (clean objsC4 12 10).2 ≤ 9 * 10) :=
  ⟨by decide, (clean_spec objsC4 12 10 (by decide)).2 (by decide) (by decide)⟩

end Clcache

namespace Clcache

/-! ## Command-line parsing (parseCommandLine, lines 500-543) -/

/-- The options dict of parseCommandLine: a defaultdict(list) modelled as an
association list from option name to its collected values. -/
abbrev Options := List (String × List String)

/-- Python `key in options`. -/
def Options.hasKey (o : Options) (k : String) : Bool :=
  o.any (fun kv => kv.1 == k)

/-- Python `options[key]` read access (an absent key of the defaultdict
reads as the empty list). -/
def Options.getD (o : Options) (k : String) : List String :=
  match o.find? (fun kv => kv.1 == k) with
  | some kv => kv.2
  | none => []

/-- Python `options[key].append(value)` on a defaultdict(list). -/
def Options.appendVal (o : Options) (k v : String) : Options :=
  if o.hasKey k then o.map (fun kv => if kv.1 == k then (kv.1, kv.2 ++ [v]) else kv)
  else o ++ [(k, [v])]

/-- Python `options[key] = []`. -/
def Options.setEmpty (o : Options) (k : String) : Options :=
  if o.hasKey k then o.map (fun kv => if kv.1 == k then (kv.1, []) else kv)
  else o ++ [(k, [])]

/-- optionsWithParameter, lines 501-507. -/
def optionsWithParameter : List String :=
  ["Ob", "Gs", "Fa", "Fd", "Fm", "Fp", "FR", "doc", "FA", "Fe",
   "Fo", "Fr", "AI", "FI", "FU", "D", "U", "I", "Zp", "vm",
   "MP", "Tc", "V", "wd", "wo", "W", "Yc", "Yl", "Tp", "we",
   "Yu", "Zm", "F"]

/-- Python slice comparison `arg[1:len(opt)+1] == opt`. -/
def slicedMatches (arg opt : String) : Bool :=
  ((arg.drop 1).take opt.length) == opt

/-- The first option of optionsWithParameter matched by the argument (the
inner for loop of lines 518-528 breaks at the first match). -/
def findParamOption (arg : String) : Option String :=
  optionsWithParameter.find? (fun opt => slicedMatches arg opt)

/-- Python `arg[0] == '/' or arg[0] == '-'` on a nonempty argument. -/
def isOptionArg (arg : String) : Bool :=
  match arg.toList with
  | c :: _ => c == '/' || c == '-'
  | [] => false

/-- The while loop of parseCommandLine, lines 511-541, carried out over the
remaining arguments and the accumulated state. The Python index walk
`value = cmdline[i+1]; i += 1` is rendered as a pending-option state:
`pending = some opt` means the previous token matched the parametrized
option `opt` with no inline value, so the current token is consumed
verbatim as its value. Returns `none` where the Python code raises
IndexError: on an empty argument (`arg[0]`), or when the pending value
read `cmdline[i+1]` falls past the end of the list because an option that
takes a parameter was the final token. -/
def parseCommandLineLoop :
    List String → Option String → Options → String → List String →
    Option (Options × String × List String)
  | [], some _, _, _, _ => none
  | [], none, opts, rf, srcs => some (opts, rf, srcs)
  | v :: rest, some opt, opts, rf, srcs =>
    parseCommandLineLoop rest none (opts.appendVal opt v) rf srcs
  | arg :: rest, none, opts, rf, srcs =>
    match arg.toList with
    | [] => none
    | c :: _ =>
      if c == '/' || c == '-' then
        match findParamOption arg with
        | some opt =>
          if opt.length + 1 < arg.length then
            parseCommandLineLoop rest none
              (opts.appendVal opt (arg.drop (opt.length + 1))) rf srcs
          else
            parseCommandLineLoop rest (some opt) opts rf srcs
        | none => parseCommandLineLoop rest none (opts.setEmpty (arg.drop 1)) rf srcs
      else if c == '@' then
        parseCommandLineLoop rest none opts (arg.drop 1) srcs
      else
        parseCommandLineLoop rest none opts rf (srcs ++ [arg])

/-- parseCommandLine, lines 500-543: options, response file and source
files collected from the argument list. -/
def parseCommandLine (cmdline : List String) :
    Option (Options × String × List String) :=
  parseCommandLineLoop cmdline none [] "" []

end Clcache

namespace Clcache

/-! ## Command-line analysis (analyzeCommandLine, lines 545-593) -/

/-- AnalysisResult, lines 420-423. -/
inductive AnalysisResult
  | Ok
  | NoSourceFile
  | MultipleSourceFilesSimple
  | MultipleSourceFilesComplex
  | CalledForLink
  | CalledWithPch
  | ExternalDebugInfo
deriving DecidableEq

/-- The dynamically-typed second and third components of the triple that
analyzeCommandLine returns: None, a string, or a list of strings. -/
inductive PyObj
  | pyNone
  | str (s : String)
  | strList (l : List String)
deriving DecidableEq

/-- The triple returned by analyzeCommandLine. -/
structure AnalyzeOutcome where
  result : AnalysisResult
  second : PyObj
  third : PyObj
deriving DecidableEq

/-- A path-separator character of ntpath. -/
def isPathSep (c : Char) : Bool := c == '\\' || c == '/'

/-- ntpath.splitdrive for drive-letter paths: split off a leading "X:". -/
def splitdrive (p : String) : String × String :=
  if ((p.drop 1).take 1) == ":" then (p.take 2, p.drop 2) else ("", p)

/-- ntpath.basename (the tail of ntpath.split): the part of the path after
the last separator, the drive prefix discounted. -/
def ntBasename (p : String) : String :=
  ((splitdrive p).2.toList.foldl
    (fun acc c => if isPathSep c then [] else acc ++ [c]) []).asString

/-- Index of the last character satisfying the test, or -1 (str.rfind). -/
def lastIdxWhere (pred : Char → Bool) (cs : List Char) : Int :=
  cs.enum.foldl (fun acc ic => if pred ic.2 then (ic.1 : Int) else acc) (-1)

/-- Root part of ntpath.splitext: cut the extension at the last dot lying
after the last separator, unless the final component up to that dot is all
dots (genericpath._splitext of Python 2.7). -/
def ntSplitextRoot (p : String) : String :=
  let cs := p.toList
  let sepIdx := lastIdxWhere isPathSep cs
  let dotIdx := lastIdxWhere (fun c => c == '.') cs
  if sepIdx < dotIdx then
    if cs.enum.any (fun ic =>
        decide (sepIdx < (ic.1 : Int)) && decide ((ic.1 : Int) < dotIdx) && ic.2 != '.') then
      (cs.take dotIdx.toNat).asString
    else p
  else p

/-- First character of a nonempty string ('Z' on the empty string, which
the callers rule out). -/
def firstChar (s : String) : Char := s.toList.headD 'Z'

/-- Last character of a nonempty string (Python path[-1]). -/
def lastChar (s : String) : Char := s.toList.getLastD 'Z'

/-- ntpath.isabs: the path, its drive removed, starts with a separator. -/
def ntIsAbs (s : String) : Bool :=
  let rest := (splitdrive s).2
  rest != "" && isPathSep (firstChar rest)

/-- ntpath.join of Python 2.7 for two components: `b` wins when `a` is
empty or `b` is absolute (with the drive-letter provisos); otherwise the
components are glued with a backslash unless `a` already ends in a
separator or a colon. -/
def ntJoin (a b : String) : String :=
  let bWins :=
    if a == "" then true
    else if ntIsAbs b then
      if ((a.drop 1).take 1) != ":" || ((b.drop 1).take 1) == ":" then true
      else decide (3 < a.length) || (a.length == 3 && !(isPathSep (lastChar a)))
    else false
  if bWins then b
  else if isPathSep (lastChar a) then
    if b != "" && isPathSep (firstChar b) then a ++ b.drop 1 else a ++ b
  else if lastChar a == ':' then a ++ b
  else if b != "" then
    if isPathSep (firstChar b) then a ++ b else a ++ "\\" ++ b
  else a ++ "\\"

/-- The extension of the source list by the values of /Tp and /Tc together
with the "complex" flag, lines 547 and 555-560. -/
def extendSources (options : Options) (srcs : List String) :
    List String × Bool :=
  let st1 :=
    if options.hasKey "Tp" then (srcs ++ options.getD "Tp", true)
    else (srcs, false)
  if options.hasKey "Tc" then (st1.1 ++ options.getD "Tc", true) else st1

/-- analyzeCommandLine, lines 545-593. `isDir` models os.path.isdir and
`cwd` models os.getcwd(); `none` propagates an IndexError raised inside
parseCommandLine (or by options["Fo"][0] on an impossible empty list). -/
def analyzeCommandLine (isDir : String → Bool) (cwd : String)
    (cmdline : List String) : Option AnalyzeOutcome :=
  match parseCommandLine cmdline with
  | none => none
  | some (options, _responseFile, sourceFiles0) =>
    if options.hasKey "Zi" then some ⟨.ExternalDebugInfo, .pyNone, .pyNone⟩
    else if options.hasKey "Yu" then some ⟨.CalledWithPch, .pyNone, .pyNone⟩
    else
      let st := extendSources options sourceFiles0
      let sourceFiles := st.1
      let complexFlag := st.2
      if options.hasKey "link" || !(options.hasKey "c") then
        some ⟨.CalledForLink, .pyNone, .pyNone⟩
      else if sourceFiles.length == 0 then some ⟨.NoSourceFile, .pyNone, .pyNone⟩
      else if 1 < sourceFiles.length then
        if complexFlag then some ⟨.MultipleSourceFilesComplex, .pyNone, .pyNone⟩
        else some ⟨.MultipleSourceFilesSimple, .strList sourceFiles, .pyNone⟩
      else
        match sourceFiles with
        | [] => none
        | src :: _ =>
          let objName := ntSplitextRoot (ntBasename src) ++ ".obj"
          let outRaw? : Option String :=
            if options.hasKey "Fo" then
              match options.getD "Fo" with
              | [] => none
              | v :: _ => some (if isDir v then ntJoin v objName else v)
            else some (ntJoin cwd objName)
          match outRaw? with
          | none => none
          | some outRaw =>
            let outputFile :=
              if outRaw.startsWith "\"" && outRaw.endsWith "\"" then
                (outRaw.drop 1).dropRight 1
              else outRaw
            some ⟨.Ok, .str src, .str outputFile⟩

end Clcache

namespace Clcache

/-! ## Claim C5: classification precedence of /Yu and /Zi -/

/-- C5 counterexample: on a command line carrying both /Yu (with its pch
argument) and /Zi, analyzeCommandLine returns ExternalDebugInfo, because
line 551 tests 'Zi' before line 553 tests 'Yu'; the claim says /Yu
dominates and the result is CalledWithPch. -/
theorem analyze_yu_zi_counterexample :
    analyzeCommandLine (fun _ => false) "C:\\work" ["/Yupch.h", "/Zi", "/c", "a.cpp"] =
      some ⟨.ExternalDebugInfo, .pyNone, .pyNone⟩ ∧
    AnalysisResult.ExternalDebugInfo ≠ AnalysisResult.CalledWithPch := by
  refine ⟨by decide, by decide⟩

/-- C5 amended: /Zi dominates /Yu (not the other way around), /Yu dominates
the multiple-source-files-complex rule, and that rule dominates the
source-count rules: whenever /Zi parsed, the result is ExternalDebugInfo;
with /Yu but no /Zi it is CalledWithPch; and with neither, /c present,
/link absent and more than one source file under a complex extension
(/Tp or /Tc), it is MultipleSourceFilesComplex. -/
theorem analyze_zi_precedence (isDir : String → Bool) (cwd : String)
    (cmdline : List String) (options : Options) (rf : String)
    (srcs : List String)
    (hp : parseCommandLine cmdline = some (options, rf, srcs)) :
    (options.hasKey "Zi" = true →
      analyzeCommandLine isDir cwd cmdline =
        some ⟨.ExternalDebugInfo, .pyNone, .pyNone⟩) ∧
    (options.hasKey "Zi" = false → options.hasKey "Yu" = true →
      analyzeCommandLine isDir cwd cmdline =
        some ⟨.CalledWithPch, .pyNone, .pyNone⟩) ∧
    (options.hasKey "Zi" = false → options.hasKey "Yu" = false →
      options.hasKey "link" = false → options.hasKey "c" = true →
      (extendSources options srcs).2 = true →
      1 < (extendSources options srcs).1.length →
      analyzeCommandLine isDir cwd cmdline =
        some ⟨.MultipleSourceFilesComplex, .pyNone, .pyNone⟩) := by
  refine ⟨?_, ?_, ?_⟩
  · intro hzi
    simp only [analyzeCommandLine, hp]
    simp [hzi]
  · intro hzi hyu
    simp only [analyzeCommandLine, hp]
    simp [hzi, hyu]
  · intro hzi hyu hlink hc hcomplex hlen
    have h0 : ((extendSources options srcs).1.length == 0) = false := by
      simp only [beq_eq_false_iff_ne, ne_eq]
      omega
    simp only [analyzeCommandLine, hp]
    simp [hzi, hyu, hlink, hc, hcomplex, hlen, h0]

/-- Witness for `analyze_zi_precedence` on the concrete command line
/Zi /c a.cpp, whose parse holds the key Zi. -/
theorem analyze_zi_precedence_witness :
    parseCommandLine ["/Zi", "/c", "a.cpp"] =
      some ([("Zi", []), ("c", [])], "", ["a.cpp"]) ∧
    ((Options.hasKey [("Zi", []), ("c", [])] "Zi" = true →
      analyzeCommandLine (fun _ => false) "C:\\work" ["/Zi", "/c", "a.cpp"] =
        some ⟨.ExternalDebugInfo, .pyNone, .pyNone⟩) ∧
    (Options.hasKey [("Zi", []), ("c", [])] "Zi" = false →
      Options.hasKey [("Zi", []), ("c", [])] "Yu" = true →
      analyzeCommandLine (fun _ => false) "C:\\work" ["/Zi", "/c", "a.cpp"] =
        some ⟨.CalledWithPch, .pyNone, .pyNone⟩) ∧
    (Options.hasKey [("Zi", []), ("c", [])] "Zi" = false →
      Options.hasKey [("Zi", []), ("c", [])] "Yu" = false →
      Options.hasKey [("Zi", []), ("c", [])] "link" = false →
      Options.hasKey [("Zi", []), ("c", [])] "c" = true →
      (extendSources [("Zi", []), ("c", [])] ["a.cpp"]).2 = true →
      1 < (extendSources [("Zi", []), ("c", [])] ["a.cpp"]).1.length →
      analyzeCommandLine (fun _ => false) "C:\\work" ["/Zi", "/c", "a.cpp"] =
        some ⟨.MultipleSourceFilesComplex, .pyNone, .pyNone⟩)) :=
  ⟨by decide,
   analyze_zi_precedence (fun _ => false) "C:\\work" ["/Zi", "/c", "a.cpp"]
     [("Zi", []), ("c", [])] "" ["a.cpp"] (by decide)⟩

/-! ## Claim C10: totality of parseCommandLine -/

/-- C10 counterexample: the single nonempty argument /Fo names an option
that takes a parameter and stands as the final token with no value attached
in the same token; parseCommandLine reads cmdline[i+1] past the end of the
list (IndexError) instead of returning a result. -/
theorem parseCommandLine_dangling_option_counterexample :
    parseCommandLine ["/Fo"] = none ∧ "/Fo" ≠ "" := by
  refine ⟨by decide, by decide⟩

/-- An argument never forces the next-token read of lines 525-526: either it
is no option argument, or its matched parametrized option (if any) carries
its value inline in the same token. -/
def inlineValueOnly (arg : String) : Bool :=
  !(isOptionArg arg) ||
    (match findParamOption arg with
     | some opt => decide (opt.length + 1 < arg.length)
     | none => true)

/-- C10 amended: parseCommandLine returns a result for every list of
non-empty argument strings in which each option that matches a parametrized
option carries its value attached in the same token; when a parametrized
option stands as the final token with no value attached, it instead fails
by accessing index i+1 past the end of the list. -/
theorem parseCommandLine_total_inline_values (cmdline : List String)
    (h : ∀ arg ∈ cmdline, arg ≠ "" ∧ inlineValueOnly arg = true) :
    ∃ r, parseCommandLine cmdline = some r := by
  suffices hgen : ∀ l : List String,
      (∀ arg ∈ l, arg ≠ "" ∧ inlineValueOnly arg = true) →
      ∀ opts rf srcs, ∃ r, parseCommandLineLoop l none opts rf srcs = some r by
    exact hgen cmdline h [] "" []
  intro l
  induction l with
  | nil => exact fun _ opts rf srcs => ⟨_, rfl⟩
  | cons arg rest ih =>
    intro h opts rf srcs
    obtain ⟨hne, hinl⟩ := h arg (List.mem_cons_self arg rest)
    have hrest := fun a ha => h a (List.mem_cons_of_mem arg ha)
    simp only [parseCommandLineLoop]
    cases htl : arg.toList with
    | nil =>
      exfalso
      apply hne
      cases arg with
      | mk d =>
        simp only [String.toList] at htl
        simp [htl]
    | cons c cs =>
      by_cases hc : (c == '/' || c == '-') = true
      · cases hfind : findParamOption arg with
        | some opt =>
          have hlen : opt.length + 1 < arg.length := by
            have hoa : isOptionArg arg = true := by
              have htd : arg.data = c :: cs := htl
              simp [isOptionArg, htd, hc]
            simp only [inlineValueOnly, hoa, Bool.not_true, Bool.false_or, hfind] at hinl
            exact of_decide_eq_true hinl
          simp only [htl, hc, if_true, hfind, if_pos hlen]
          exact ih hrest _ _ _
        | none =>
          simp only [htl, hc, if_true, hfind]
          exact ih hrest _ _ _
      · by_cases hat : (c == '@') = true
        · simp only [htl, hc, Bool.false_eq_true, if_false, hat, if_true]
          exact ih hrest _ _ _
        · simp only [htl, hc, hat, Bool.false_eq_true, if_false]
          exact ih hrest _ _ _

/-- Witness for `parseCommandLine_total_inline_values` on the command line
/c /Fohello.obj a.cpp, whose only parametrized option carries its value
inline. -/
theorem parseCommandLine_total_inline_values_witness :
    (∀ arg ∈ ["/c", "/Fohello.obj", "a.cpp"], arg ≠ "" ∧ inlineValueOnly arg = true) ∧
    ∃ r, parseCommandLine ["/c", "/Fohello.obj", "a.cpp"] = some r :=
  ⟨by decide, parseCommandLine_total_inline_values _ (by decide)⟩

end Clcache

namespace Clcache

/-! ## Claim C6: jobCount (lines 639-663) -/

/-- re.search(r'^/MPd+$', switch) with d+ one or more digits: the switch is
"/MP" followed by at least one digit and nothing else. A bare "/MP" does
not match, because the pattern requires a digit. -/
def matchesMPn (sw : String) : Bool :=
  (sw.take 3) == "/MP" && (sw.drop 3) != "" && (sw.drop 3).toList.all Char.isDigit

/-- Helper for `pySplitOnChar`, walking the characters of the string. -/
def splitOnCharAux (sep : Char) : List Char → List Char → List String
  | [], acc => [acc.reverse.asString]
  | c :: cs, acc =>
    if c == sep then acc.reverse.asString :: splitOnCharAux sep cs []
    else splitOnCharAux sep cs (c :: acc)

/-- Python str.split(sep) for a one-character separator (empty pieces
kept; the empty string yields one empty piece). -/
def pySplitOnChar (sep : Char) (s : String) : List String :=
  splitOnCharAux sep s.toList []

/-- Python int() on a string of digits. -/
def pyIntOfDigits (s : String) : Nat :=
  s.toList.foldl (fun n c => 10 * n + (c.toNat - Char.toNat (Char.ofNat 48))) 0

/-- jobCount, lines 639-663: collect the switches of the CL environment
variable (split on spaces) followed by the command line, keep those matched
by the /MPn pattern, and let the last one win; 1 when none matches.
`cpuCount` stands for multiprocessing.cpu_count(). -/
def jobCount (cpuCount : Nat) (clEnv : Option String) (cmdLine : List String) : Nat :=
  let switches :=
    (match clEnv with
     | some v => pySplitOnChar ' ' v
     | none => []) ++ cmdLine
  let mpSwitches := switches.filter matchesMPn
  match mpSwitches.getLast? with
  | none => 1
  | some sw =>
    let count := sw.drop 3
    if count != "" then pyIntOfDigits count
    else cpuCount

/-- C6: the spec says a bare /MP yields the number of logical CPUs, and the
code's own comment on line 658 agrees ("/MP, but no count specified; use
CPU count") — but the regex of line 647 demands at least one digit, so a
bare /MP is filtered out and jobCount falls into the no-switch branch,
returning 1 on an 8-CPU machine instead of 8; the CPU-count branch is dead
code. The numbered and absent forms behave as claimed. -/
theorem jobCount_bare_MP_returns_one :
    jobCount 8 none ["/MP"] = 1 ∧
    jobCount 8 none ["/MP2", "/MP3"] = 3 ∧
    jobCount 8 (some "/MP4 /nologo") ["/MP2"] = 2 ∧
    jobCount 8 none [] = 1 ∧
    (1 : Nat) ≠ 8 := by
  refine ⟨by decide, by decide, by decide, by decide, by decide⟩

/-! ## Claim C7: dispatch of unusable invocations (lines 795-812) -/

/-- The eight counters of CacheStatistics, lines 350-357. -/
structure Stats where
  callsWithoutSourceFile : Nat
  callsWithMultipleSourceFiles : Nat
  callsWithPch : Nat
  callsForLinking : Nat
  cacheEntries : Nat
  cacheSize : Int
  cacheHits : Nat
  cacheMisses : Nat
deriving DecidableEq

/-- What the non-Ok dispatch block produces: the statistics after the
bookkeeping, the argv forwarded to the real compiler, and the wrapper's
exit code. -/
structure NonOkOutcome where
  stats : Stats
  forwardedArgv : List String
  exitCode : Int
deriving DecidableEq

/-- The non-Ok branch of the dispatcher, lines 795-812: bump the counter
matching the analysis result (the ExternalDebugInfo arm of lines 809-810
only prints a trace and bumps nothing), save the statistics, and exit with
the code of invokeRealCompiler(compiler, sys.argv[1:]). `origArgv` is
sys.argv[1:] and `realExit` the real compiler's return code. -/
def dispatchNonOk (r : AnalysisResult) (s : Stats) (origArgv : List String)
    (realExit : Int) : NonOkOutcome :=
  let s2 :=
    match r with
    | .NoSourceFile =>
      { s with callsWithoutSourceFile := s.callsWithoutSourceFile + 1 }
    | .MultipleSourceFilesComplex =>
      { s with callsWithMultipleSourceFiles := s.callsWithMultipleSourceFiles + 1 }
    | .CalledWithPch => { s with callsWithPch := s.callsWithPch + 1 }
    | .CalledForLink => { s with callsForLinking := s.callsForLinking + 1 }
    | _ => s
  { stats := s2, forwardedArgv := origArgv, exitCode := realExit }

/-- All-zero statistics, the state of a fresh stats.txt. -/
def statsZero : Stats := ⟨0, 0, 0, 0, 0, 0, 0, 0⟩

/-- C7 counterexample: for an invocation classified ExternalDebugInfo
(the /Zi reason), the dispatcher forwards the command line and exits with
the real compiler's code, but no statistics counter is incremented — the
statistics are returned unchanged, and CacheStatistics has no counter for
this reason at all; the claim says every unusable reason bumps a counter. -/
theorem dispatch_externalDebugInfo_bumps_nothing :
    dispatchNonOk .ExternalDebugInfo statsZero ["/Zi", "/c", "a.cpp"] 3 =
      ⟨statsZero, ["/Zi", "/c", "a.cpp"], 3⟩ ∧
    dispatchNonOk .CalledWithPch statsZero ["/Yux.h", "/c", "a.cpp"] 3 ≠
      ⟨statsZero, ["/Yux.h", "/c", "a.cpp"], 3⟩ := by
  refine ⟨rfl, by decide⟩

/-- C7 amended: for every invocation classified as unusable the wrapper
forwards the original command line to the real compiler uncached and exits
with its exit code; for NoSourceFile, MultipleSourceFilesComplex,
CalledWithPch and CalledForLink it increments the corresponding counter,
while for ExternalDebugInfo no counter is incremented (none exists for that
reason). -/
theorem dispatch_nonOk_spec (s : Stats) (argv : List String) (code : Int) :
    dispatchNonOk .NoSourceFile s argv code =
      ⟨{ s with callsWithoutSourceFile := s.callsWithoutSourceFile + 1 }, argv, code⟩ ∧
    dispatchNonOk .MultipleSourceFilesComplex s argv code =
      ⟨{ s with callsWithMultipleSourceFiles := s.callsWithMultipleSourceFiles + 1 },
        argv, code⟩ ∧
    dispatchNonOk .CalledWithPch s argv code =
      ⟨{ s with callsWithPch := s.callsWithPch + 1 }, argv, code⟩ ∧
    dispatchNonOk .CalledForLink s argv code =
      ⟨{ s with callsForLinking := s.callsForLinking + 1 }, argv, code⟩ ∧
    dispatchNonOk .ExternalDebugInfo s argv code = ⟨s, argv, code⟩ :=
  ⟨rfl, rfl, rfl, rfl, rfl⟩

/-! ## Claim C8: default maximum cache size (Configuration, lines 321-334) -/

/-- Configuration._defaultValues, line 322: 1024 * 1024 * 1000 bytes. -/
def configDefaultValues : List (String × Int) := [("MaximumCacheSize", 1024 * 1024 * 1000)]

/-- Python `key in cfg` on the configuration dict. -/
def cfgHasKey (cfg : List (String × Int)) (k : String) : Bool :=
  cfg.any (fun kv => kv.1 == k)

/-- Assignment `cfg[k] = v` on the configuration dict. -/
def cfgSet (cfg : List (String × Int)) (k : String) (v : Int) : List (String × Int) :=
  if cfgHasKey cfg k then cfg.map (fun kv => if kv.1 == k then (kv.1, v) else kv)
  else cfg ++ [(k, v)]

/-- Configuration.__init__, lines 324-331: start from the dict loaded out
of config.txt (empty when the file is missing or unparseable, per
PersistentJSONDict lines 296-304) and materialize each missing default. -/
def configurationInit (loaded : List (String × Int)) : List (String × Int) :=
  configDefaultValues.foldl
    (fun cfg kv => if cfgHasKey cfg kv.1 then cfg else cfgSet cfg kv.1 kv.2)
    loaded

/-- Configuration.maximumCacheSize, lines 333-334 (`none` would be the
KeyError on a dict missing the key). -/
def maximumCacheSize (cfg : List (String × Int)) : Option Int :=
  (cfg.find? (fun kv => kv.1 == "MaximumCacheSize")).map (fun kv => kv.2)

/-- C8 counterexample: with config.txt absent the freshly constructed
configuration reports 1024 * 1024 * 1000 = 1,048,576,000 bytes, not the
1,073,741,824 bytes the claim states. -/
theorem maximumCacheSize_default_counterexample :
    maximumCacheSize (configurationInit []) = some 1048576000 ∧
    (1048576000 : Int) ≠ 1073741824 := by
  refine ⟨rfl, by decide⟩

/-- C8 amended: when the configuration file is absent or contains no
MaximumCacheSize key, a freshly constructed Configuration reports
maximumCacheSize() equal to 1,048,576,000 bytes (1024 * 1024 * 1000). -/
theorem cfg_find_append_single (loaded : List (String × Int)) (k : String) (v : Int)
    (h : cfgHasKey loaded k = false) :
    (loaded ++ [(k, v)]).find? (fun kv => kv.1 == k) = some (k, v) := by
  induction loaded with
  | nil => simp [List.find?]
  | cons x xs ih =>
    simp only [cfgHasKey, List.any_cons, Bool.or_eq_false_iff] at h
    obtain ⟨h1, h2⟩ := h
    have ih2 := ih (by simpa [cfgHasKey] using h2)
    simp [List.find?, h1, ih2]

theorem maximumCacheSize_default (loaded : List (String × Int))
    (h : cfgHasKey loaded "MaximumCacheSize" = false) :
    maximumCacheSize (configurationInit loaded) = some 1048576000 := by
  have hinit : configurationInit loaded =
      loaded ++ [("MaximumCacheSize", 1024 * 1024 * 1000)] := by
    simp [configurationInit, configDefaultValues, h, cfgSet]
  rw [maximumCacheSize, hinit,
    cfg_find_append_single loaded "MaximumCacheSize" (1024 * 1024 * 1000) h]
  rfl

/-- Witness for `maximumCacheSize_default` on a config document holding an
unrelated key only. -/
theorem maximumCacheSize_default_witness :
    cfgHasKey [("Other", 7)] "MaximumCacheSize" = false ∧
    maximumCacheSize (configurationInit [("Other", 7)]) = some 1048576000 :=
  ⟨by decide, maximumCacheSize_default [("Other", 7)] (by decide)⟩

end Clcache

namespace Clcache

/-! ## Claim C9: include discovery (getDirectIncludeFiles, lines 128-146) -/

/-- An element of the Python list that getDirectIncludeFiles returns:
either a path string or a (hash, path) tuple. -/
inductive IncludeItem
  | path (p : String)
  | hashPath (h p : String)
deriving DecidableEq

/-- Whether an element of that list is a path string. -/
def isPathItem : IncludeItem → Bool
  | .path _ => true
  | .hashPath _ _ => false

/-- Helper for `pySet`: drop elements already seen. -/
def dedupAux : List String → List String → List String
  | [], _ => []
  | x :: xs, seen =>
    if seen.contains x then dedupAux xs seen else x :: dedupAux xs (x :: seen)

/-- Python set(files), enumerated: the distinct elements. Python 2 set
iteration order is unspecified; first-occurrence order is the enumeration
used here (the claims do not depend on the order). -/
def pySet (l : List String) : List String := dedupAux l []

/-- One-or-more occurrences of a character class: consume one mandatory
matching character and then the longest matching run. -/
def dropClassOnePlus (pred : Char → Bool) : List Char → Option (List Char)
  | c :: cs => if pred c then some (cs.dropWhile pred) else none
  | [] => none

/-- The regular expression of line 136 applied with re.match: an anchored
prefix of the shape hash-sign line keyword, whitespace, digits, whitespace,
a double-quoted nonempty path; the captured path, or none. -/
def parseLineDirective (l : String) : Option String :=
  let cs := l.toList
  if cs.take 5 == "#line".toList then
    match dropClassOnePlus pyWhitespace (cs.drop 5) with
    | none => none
    | some cs2 =>
      match dropClassOnePlus Char.isDigit cs2 with
      | none => none
      | some cs3 =>
        match dropClassOnePlus pyWhitespace cs3 with
        | none => none
        | some cs4 =>
          match cs4 with
          | c :: cs5 =>
            if c == Char.ofNat 34 then
              let captured := cs5.takeWhile (fun d => d != Char.ofNat 34)
              if captured.isEmpty then none
              else
                match cs5.drop captured.length with
                | d :: _ => if d == Char.ofNat 34 then some captured.asString else none
                | [] => none
            else none
          | [] => none
  else none

/-- ObjectCache.getDirectIncludeFiles, lines 128-146, applied to the
captured preprocessor stdout (`ppOutput`); `abspath` models
os.path.abspath. The function first collects the absolute paths named by
the matching lines, then — in the loop of lines 143-144 — appends the
(hashFile(f), f) tuples onto the same list, returning a mixed list.
`none` propagates the IOError of hashFile on an unreadable file. -/
def getDirectIncludeFiles (H : String → String) (fs : FS) (abspath : String → String)
    (ppOutput : String) : Option (List IncludeItem) :=
  let files := ((pySplitOnChar '\n' ppOutput).filterMap parseLineDirective).map abspath
  match (pySet files).mapM (fun f => (hashFile H fs f).map (fun h => (h, f))) with
  | none => none
  | some hashed =>
    some (files.map IncludeItem.path ++
      hashed.map (fun pr => IncludeItem.hashPath pr.1 pr.2))

/-- hashFile as the miss path of lines 836-838 applies it to each element
of the include list: on a path string it hashes the file's contents, but on
a (hash, path) tuple open() raises TypeError. -/
def hashFileOnItem (H : String → String) (fs : FS) : IncludeItem → Except PyExc String
  | .path p =>
    match fsRead fs p with
    | some c => .ok (H c)
    | none => .error .ioError
  | .hashPath _ _ => .error .typeError

/-- The direct-mode miss path of lines 833-839: hash every element of the
include list and pair it with the element to build the manifest data. -/
def missPathManifest (H : String → String) (fs : FS) (items : List IncludeItem) :
    Except PyExc (List (String × IncludeItem)) :=
  items.mapM (fun fn => (hashFileOnItem H fs fn).map (fun h => (h, fn)))

/-- C9: the claim says every element of getDirectIncludeFiles' result is a
file-path string so the miss path can hash each one. The code is a slip:
the loop of lines 143-144 appends (hash, path) tuples onto the list of
paths, so on a preprocessor output with one line directive the result is
[path, (hash, path)]; the second element is not a path string, and the miss
path's hashFile raises TypeError on it. -/
theorem getDirectIncludeFiles_mixes_tuples :
    getDirectIncludeFiles (fun c => c) [("C:\\abs\\foo.h", "HDR")]
        (fun s => "C:\\abs\\" ++ s) "#line 1 \"foo.h\"\nint x;" =
      some [IncludeItem.path "C:\\abs\\foo.h",
            IncludeItem.hashPath "HDR" "C:\\abs\\foo.h"] ∧
    isPathItem (IncludeItem.hashPath "HDR" "C:\\abs\\foo.h") = false ∧
    missPathManifest (fun c => c) [("C:\\abs\\foo.h", "HDR")]
        [IncludeItem.path "C:\\abs\\foo.h",
         IncludeItem.hashPath "HDR" "C:\\abs\\foo.h"] =
      .error .typeError := by
  refine ⟨by decide, by decide, rfl⟩

end Clcache
